import Mathlib

/-!
Verification of the Umvuzo invoicing application (src/app/main.py and the
modules it uses).  The data model follows src/app/models.py; the operations
are shallow embeddings of the mounted route handlers in src/app/main.py
(the routers defined in src/app/invoices.py, src/app/clients.py and
src/app/quotes.py are never registered on the FastAPI app object, so the
handlers in main.py are the only reachable operations).

Monetary amounts (unit_cost, quantity, total) are modelled as rationals:
every claim under verification is about the exact arithmetic expressions
the code computes, not about floating point rounding.

Item collections (QuoteItem / InvoiceItem tables) are embedded as lists
stored on their owning record, ordered by creation order, which is the
order returned by the `filter(... == id).all()` queries in main.py.
-/

namespace Umvuzo

/-! ### Decimal printing and parsing

`pad3 n` models the Python f-string `f"{n:03d}"` used for client-code
suffixes, and `parseSuffix` models `int(code[3:])` restricted to plain
digit strings — the only form `int` ever receives from generator-produced
client codes (a non-digit suffix raises in Python and is skipped; here it
parses to `none` and is skipped likewise). -/

/-- Little-endian decimal digits, with explicit fuel (structural recursion). -/
def digitsRevAux : Nat → Nat → List Nat
  | _, 0 => []
  | 0, _ + 1 => []
  | fuel + 1, n + 1 => ((n + 1) % 10) :: digitsRevAux fuel ((n + 1) / 10)

/-- Little-endian decimal digits of `n`. -/
def digitsRev (n : Nat) : List Nat := digitsRevAux n n

/-- Value of a little-endian digit list. -/
def ofDigitsLE : List Nat → Nat
  | [] => 0
  | d :: l => d + 10 * ofDigitsLE l

theorem digitsRevAux_spec : ∀ fuel n, n ≤ fuel → ofDigitsLE (digitsRevAux fuel n) = n := by
  intro fuel
  induction fuel with
  | zero =>
    intro n hn
    interval_cases n
    rfl
  | succ f ih =>
    intro n hn
    match n with
    | 0 => rfl
    | m + 1 =>
      have hdiv : (m + 1) / 10 ≤ f := by
        have := Nat.div_lt_self (Nat.succ_pos m) (by omega : 1 < 10)
        omega
      simp only [digitsRevAux, ofDigitsLE, ih _ hdiv]
      omega

theorem ofDigitsLE_digitsRev (n : Nat) : ofDigitsLE (digitsRev n) = n :=
  digitsRevAux_spec n n (Nat.le_refl n)

theorem digitsRevAux_lt10 : ∀ fuel n d, d ∈ digitsRevAux fuel n → d < 10 := by
  intro fuel
  induction fuel with
  | zero =>
    intro n d hd
    match n with
    | 0 => simp [digitsRevAux] at hd
    | _ + 1 => simp [digitsRevAux] at hd
  | succ f ih =>
    intro n d hd
    match n with
    | 0 => simp [digitsRevAux] at hd
    | m + 1 =>
      simp only [digitsRevAux, List.mem_cons] at hd
      rcases hd with h | h
      · omega
      · exact ih _ _ h

theorem digitsRev_lt10 (n d : Nat) (hd : d ∈ digitsRev n) : d < 10 :=
  digitsRevAux_lt10 n n d hd

/-- ASCII digit character for a decimal digit. -/
def digitChar (d : Nat) : Char := Char.ofNat (48 + d)

/-- Numeric value of an ASCII digit character. -/
def charVal (c : Char) : Nat := c.toNat - 48

theorem digit_roundtrip : ∀ d, d < 10 →
    charVal (digitChar d) = d ∧ (digitChar d).isDigit = true := by
  decide

/-- Zero-padded 3-digit decimal rendering: the Python `f"{n:03d}"`. -/
def pad3 (n : Nat) : String :=
  let ds : List Char := ((digitsRev n).map digitChar).reverse
  String.mk (List.replicate (3 - ds.length) '0' ++ ds)

/-- Parse of a plain digit string, the successful case of Python `int`. -/
def parseSuffix (s : String) : Option Nat :=
  if (!s.data.isEmpty) && s.data.all Char.isDigit then
    some (ofDigitsLE ((s.data.map charVal).reverse))
  else none

theorem ofDigitsLE_append_zeros : ∀ (l : List Nat) (k : Nat),
    ofDigitsLE (l ++ List.replicate k 0) = ofDigitsLE l := by
  intro l
  induction l with
  | nil =>
    intro k
    induction k with
    | zero => rfl
    | succ k ih => simpa [ofDigitsLE, List.replicate_succ] using ih
  | cons d l ih =>
    intro k
    simp [ofDigitsLE, ih]

theorem parseSuffix_pad3 (n : Nat) : parseSuffix (pad3 n) = some n := by
  have hdig : ∀ c ∈ ((digitsRev n).map digitChar).reverse, c.isDigit = true := by
    intro c hc
    rw [List.mem_reverse, List.mem_map] at hc
    obtain ⟨d, hd, rfl⟩ := hc
    exact (digit_roundtrip d (digitsRev_lt10 n d hd)).2
  have hvals : (((digitsRev n).map digitChar).reverse.map charVal) = (digitsRev n).reverse := by
    rw [List.map_reverse, List.map_map]
    congr 1
    conv_rhs => rw [← List.map_id (digitsRev n)]
    refine List.map_congr_left ?_
    intro d hd
    simpa using (digit_roundtrip d (digitsRev_lt10 n d hd)).1
  set ds : List Char := ((digitsRev n).map digitChar).reverse with hds
  have hall : (List.replicate (3 - ds.length) '0' ++ ds).all Char.isDigit = true := by
    rw [List.all_eq_true]
    intro c hc
    rw [List.mem_append] at hc
    rcases hc with hc | hc
    · rw [List.eq_of_mem_replicate hc]; decide
    · exact hdig c hc
  have hne : ((List.replicate (3 - ds.length) '0' ++ ds).isEmpty) = false := by
    rcases ds with _ | ⟨c, cs⟩
    · decide
    · simp [List.isEmpty_eq_false_iff_exists_mem]
  have hmapval : ((List.replicate (3 - ds.length) '0' ++ ds).map charVal) =
      List.replicate (3 - ds.length) 0 ++ (digitsRev n).reverse := by
    rw [List.map_append, hvals]
    congr 1
    simp [List.map_replicate, charVal]
  rw [pad3, parseSuffix]
  simp only [hne, hall, Bool.not_false, Bool.and_self, if_pos]
  rw [hmapval, List.reverse_append, List.reverse_reverse, List.reverse_replicate,
    ofDigitsLE_append_zeros, ofDigitsLE_digitsRev]

/-! ### Data model (src/app/models.py) -/

/-- `UserRole` enum in src/app/models.py. -/
inductive UserRole where
  | admin
  | user
deriving DecidableEq, Repr

/-- Row of the `users` table (columns relevant to the verified operations). -/
structure UserR where
  id : Nat
  username : String
  role : UserRole
deriving DecidableEq, Repr

/-- Row of the `clients` table.  The pass-through contact/billing columns
(email, phone, address, billing fields, VAT/tax numbers, payment terms) are
copied verbatim from the form into the row and never read by any verified
operation, so they are not modelled. -/
structure ClientR where
  id : Nat
  name : String
  client_code : Option String
  created_by_id : Nat
deriving DecidableEq, Repr

/-- Row of the `quote_items` table (minus the redundant back-reference). -/
structure QuoteItemR where
  description : String
  unit_cost : ℚ
  quantity : ℚ
deriving DecidableEq, Repr

/-- Row of the `quotes` table; `items` is the owned `quote_items`
collection in creation order. -/
structure QuoteR where
  id : Nat
  quote_number : Nat
  client_id : Nat
  total : ℚ
  status : String
  converted : Bool
  created_by_id : Nat
  items : List QuoteItemR
deriving DecidableEq, Repr

/-- Row of the `invoice_items` table. -/
structure InvoiceItemR where
  description : String
  unit_cost : ℚ
  quantity : ℚ
deriving DecidableEq, Repr

/-- Row of the `invoices` table; `items` is the owned `invoice_items`
collection in creation order.  Timestamps are abstract `Nat` instants. -/
structure InvoiceR where
  id : Nat
  invoice_number : Nat
  client_id : Nat
  total : ℚ
  paid : Bool
  paid_at : Option Nat
  created_by_id : Nat
  marked_paid_by_id : Option Nat
  items : List InvoiceItemR
deriving DecidableEq, Repr

/-- Row of the `password_reset_tokens` table. -/
structure ResetTokenR where
  id : Nat
  user_id : Nat
  token : String
  expires_at : Nat
  used : Bool
deriving DecidableEq, Repr

/-- Row of the `audit_logs` table, as written by `log_audit_action`. -/
structure AuditEntry where
  user_id : Nat
  action : String
  entity_type : Option String
  entity_id : Option Nat
deriving DecidableEq, Repr

/-- The record store; `nextId` models the autoincrement primary-key counter
shared by newly inserted rows. -/
structure DB where
  clients : List ClientR
  quotes : List QuoteR
  invoices : List InvoiceR
  users : List UserR
  resetTokens : List ResetTokenR
  auditLog : List AuditEntry
  nextId : Nat
deriving DecidableEq, Repr

/-! ### Shared helpers from src/app/main.py -/

/-- The inline ownership test used by every handler:
`current_user.role != UserRole.ADMIN and entity.created_by_id != current_user.id`. -/
def accessDenied (u : UserR) (creatorId : Nat) : Bool :=
  (u.role != UserRole.admin) && (creatorId != u.id)

/-- SQL `max` aggregate: `None` on an empty row set, else the maximum. -/
def sqlMax (l : List Nat) : Option Nat :=
  l.foldr (fun n acc => match acc with
    | none => some n
    | some m => some (Nat.max n m)) none

/-- The idiom `next_num = 1 if not last else last + 1` applied to the
`max` aggregate (`not last` catches both `None` and `0`). -/
def numberFromLast : Option Nat → Nat
  | none => 1
  | some last => if last = 0 then 1 else last + 1

/-- `db.query(func.max(Invoice.invoice_number)).filter(Invoice.client_id == cid)`
followed by `1 if not last_inv else last_inv + 1` (main.py, convert_quote). -/
def nextInvoiceNumber (invoices : List InvoiceR) (cid : Nat) : Nat :=
  numberFromLast (sqlMax ((invoices.filter (fun i => i.client_id == cid)).map
    (fun i => i.invoice_number)))

/-- `db.query(func.max(Quote.quote_number)).filter(Quote.client_id == cid)`
followed by `1 if not last else last + 1` (main.py, create_quote). -/
def nextQuoteNumber (quotes : List QuoteR) (cid : Nat) : Nat :=
  numberFromLast (sqlMax ((quotes.filter (fun q => q.client_id == cid)).map
    (fun q => q.quote_number)))

/-- The accumulation loop `total = 0; for item: total += unit_cost * quantity`. -/
def quoteItemsTotal (items : List QuoteItemR) : ℚ :=
  items.foldl (fun acc it => acc + it.unit_cost * it.quantity) 0

/-- Same loop over invoice items (used to state the C5 invariant). -/
def invoiceItemsTotal (items : List InvoiceItemR) : ℚ :=
  items.foldl (fun acc it => acc + it.unit_cost * it.quantity) 0

/-! ### Client-code generation (main.py, create_client) -/

/-- `re.sub(r'[^A-Za-z]', '', name).upper()` — `Char.isAlpha` is exactly
the class `[A-Za-z]`, and `upper` only ever acts on those letters here. -/
def cleanLetters (name : String) : List Char :=
  (name.data.filter Char.isAlpha).map Char.toUpper

/-- `if len(clean_name) < 3: clean_name = (clean_name + "XXX")[:3]` then
`base_code = clean_name[:3]`. -/
def baseCode (name : String) : String :=
  String.mk ((if (cleanLetters name).length < 3
    then ((cleanLetters name) ++ ['X', 'X', 'X']).take 3
    else cleanLetters name).take 3)

/-- SQL `client_code LIKE f"{base_code}%"`: the base is three ASCII
letters (no LIKE wildcards), so the filter is a plain starts-with test. -/
def likeMatch (base code : String) : Bool :=
  code.data.take base.data.length == base.data

/-- Python `code[3:]`. -/
def dropStr (k : Nat) (s : String) : String := String.mk (s.data.drop k)

/-- Line 431 of main.py: `db.query(Client).filter(Client.client_code.like(f"{base_code}%"))`
(a `NULL` code never matches a LIKE pattern). -/
def likeExisting (db : DB) (base : String) : List ClientR :=
  db.clients.filter (fun c => match c.client_code with
    | some code => likeMatch base code
    | none => false)

/-- Lines 434–440 of main.py: collect `int(c.client_code[3:])` over the
colliding rows, skipping the ones whose suffix does not parse. -/
def suffixNumbers (existing : List ClientR) : List Nat :=
  existing.filterMap (fun c => match c.client_code with
    | some code => parseSuffix (dropStr 3 code)
    | none => none)

/-- Lines 433–443 of main.py: `next_num = max(numbers) + 1 if numbers else 1`
inside `if existing:`, else `next_num = 1`. -/
def nextClientNum (db : DB) (base : String) : Nat :=
  if (likeExisting db base).isEmpty then 1
  else
    match sqlMax (suffixNumbers (likeExisting db base)) with
    | none => 1
    | some m => m + 1

/-- Lines 426–445 of main.py: `client_code = f"{base_code}{next_num:03d}"`. -/
def clientCodeFor (db : DB) (name : String) : String :=
  baseCode name ++ pad3 (nextClientNum db (baseCode name))

/-! ### Operations (route handlers in src/app/main.py)

Each embedding starts after the CSRF-token comparison (session plumbing,
out of scope) and describes the committed state of the handler's
transaction.  Redirect-with-flash failures and raised `HTTPException`s are
both modelled as `Except` errors; the paired `DB` is the store after the
handler returns. -/

/-- Outcome of `convert_quote` (main.py lines 624–673). -/
inductive ConvertError where
  | notFound
  | forbidden
  | alreadyConverted
  | invalidState
deriving DecidableEq, Repr

/-- Outcome of `create_quote`: a 403 for a missing or foreign client, a
flashed validation failure for an empty item list. -/
inductive CreateQuoteError where
  | forbidden
  | validation
deriving DecidableEq, Repr

/-- Outcome of the lookup-then-ownership check shared by the invoice and
quote read/modify handlers. -/
inductive AccessError where
  | notFound
  | forbidden
deriving DecidableEq, Repr

/-- `POST /clients/create` (main.py lines 404–466), success path of the
`try` block: generate the code, insert the row, write the audit entry.
Returns the generated code alongside the new store. -/
def create_client (db : DB) (name : String) (u : UserR) : DB × String :=
  let code := clientCodeFor db name
  let newClient : ClientR :=
    { id := db.nextId, name := name, client_code := some code, created_by_id := u.id }
  ({ db with
      clients := db.clients ++ [newClient],
      auditLog := db.auditLog ++
        [{ user_id := u.id, action := "client_created", entity_type := some "client",
           entity_id := some db.nextId }],
      nextId := db.nextId + 1 }, code)

/-- `POST /quotes/create` (main.py lines 571–622); `items` is the decoded
`items_data` payload.  The committed quote carries the accumulated total. -/
def create_quote (db : DB) (client_id : Nat) (items : List QuoteItemR) (u : UserR) :
    Except CreateQuoteError QuoteR × DB :=
  match db.clients.find? (fun c => c.id == client_id) with
  | none => (.error .forbidden, db)
  | some c =>
    if accessDenied u c.created_by_id then (.error .forbidden, db)
    else if items.isEmpty then (.error .validation, db)
    else
      let next_num := nextQuoteNumber db.quotes client_id
      let q : QuoteR :=
        { id := db.nextId, quote_number := next_num, client_id := client_id,
          total := quoteItemsTotal items, status := "Draft", converted := false,
          created_by_id := u.id, items := items }
      (.ok q,
       { db with
          quotes := db.quotes ++ [q],
          auditLog := db.auditLog ++
            [{ user_id := u.id, action := "quote_created", entity_type := some "quote",
               entity_id := some db.nextId }],
          nextId := db.nextId + 1 })

/-- `GET /quotes/{quote_id}/convert` (main.py lines 624–673): the four
guards in source order, then the transaction that allocates the number,
copies the items, sets the total and marks the quote converted. -/
def convert_quote (db : DB) (quote_id : Nat) (u : UserR) :
    Except ConvertError InvoiceR × DB :=
  match db.quotes.find? (fun q => q.id == quote_id) with
  | none => (.error .notFound, db)
  | some quote =>
    if accessDenied u quote.created_by_id then (.error .forbidden, db)
    else if quote.converted then (.error .alreadyConverted, db)
    else if quote.status != "Approved" then (.error .invalidState, db)
    else
      let next_inv := nextInvoiceNumber db.invoices quote.client_id
      let newItems := quote.items.map (fun it =>
        ({ description := it.description, unit_cost := it.unit_cost,
           quantity := it.quantity } : InvoiceItemR))
      let invoice : InvoiceR :=
        { id := db.nextId, invoice_number := next_inv, client_id := quote.client_id,
          total := quoteItemsTotal quote.items, paid := false, paid_at := none,
          created_by_id := u.id, marked_paid_by_id := none, items := newItems }
      (.ok invoice,
       { db with
          invoices := db.invoices ++ [invoice],
          quotes := db.quotes.map (fun q2 =>
            if q2.id == quote_id then { q2 with converted := true } else q2),
          auditLog := db.auditLog ++
            [{ user_id := u.id, action := "quote_converted", entity_type := some "invoice",
               entity_id := some db.nextId }],
          nextId := db.nextId + 1 })

/-- `GET /invoices/{invoice_id}/paid` (main.py lines 763–779): lookup,
ownership check, then the `if not invoice.paid:` guarded update. -/
def mark_paid (db : DB) (invoice_id : Nat) (u : UserR) (now : Nat) :
    Except AccessError Unit × DB :=
  match db.invoices.find? (fun i => i.id == invoice_id) with
  | none => (.error .notFound, db)
  | some invoice =>
    if accessDenied u invoice.created_by_id then (.error .forbidden, db)
    else if invoice.paid then (.ok (), db)
    else
      (.ok (),
       { db with
          invoices := db.invoices.map (fun i2 =>
            if i2.id == invoice_id then
              { i2 with paid := true, paid_at := some now, marked_paid_by_id := some u.id }
            else i2),
          auditLog := db.auditLog ++
            [{ user_id := u.id, action := "invoice_marked_paid", entity_type := some "invoice",
               entity_id := some invoice.id }] })

/-- The lookup-then-ownership pattern of the quote read handlers
(`GET /quotes/{id}/pdf`, main.py lines 675–688): a pure view, no state
change. -/
def view_quote (db : DB) (quote_id : Nat) (u : UserR) : Except AccessError QuoteR :=
  match db.quotes.find? (fun q => q.id == quote_id) with
  | none => .error .notFound
  | some quote =>
    if accessDenied u quote.created_by_id then .error .forbidden
    else .ok quote

/-- What the caller of a handler observes: flash message plus redirect. -/
structure Response where
  flash : String
  location : String
  status : Nat
deriving DecidableEq, Repr

/-- `POST /forgot-password` (main.py lines 154–197).  `tok` stands for the
random `secrets.token_urlsafe(32)` value, `now` for `datetime.utcnow()`
in minutes.  The outbound email is an external effect swallowed by the
bare `except: pass` and is not part of the store. -/
def forgot_password (db : DB) (username : String) (tok : String) (now : Nat) :
    Response × DB :=
  let resp : Response :=
    { flash := "If that email exists, a reset link has been sent.",
      location := "/login", status := 303 }
  match db.users.find? (fun u => u.username == username) with
  | none => (resp, db)
  | some u =>
    (resp,
     { db with
        resetTokens :=
          (db.resetTokens.map (fun t =>
            if t.user_id == u.id && t.used == false then { t with used := true } else t)) ++
          [{ id := db.nextId, user_id := u.id, token := tok,
             expires_at := now + 30, used := false }],
        nextId := db.nextId + 1 })

/-- One state-changing request handled by the mounted application: the
reachable transitions of the record store. -/
inductive Step : DB → DB → Prop where
  | createClient (db : DB) (name : String) (u : UserR) :
      Step db (create_client db name u).1
  | createQuote (db : DB) (cid : Nat) (items : List QuoteItemR) (u : UserR) :
      Step db (create_quote db cid items u).2
  | convertQuote (db : DB) (qid : Nat) (u : UserR) :
      Step db (convert_quote db qid u).2
  | markPaid (db : DB) (iid : Nat) (u : UserR) (now : Nat) :
      Step db (mark_paid db iid u now).2
  | forgotPassword (db : DB) (username tok : String) (now : Nat) :
      Step db (forgot_password db username tok now).2

/-! ### Invariants under verification -/

/-- Every stored invoice's cached total equals the sum of its items'
line amounts. -/
def InvoiceTotalsOk (db : DB) : Prop :=
  ∀ inv ∈ db.invoices, inv.total = invoiceItemsTotal inv.items

/-- Invoice numbers are pairwise distinct among invoices of the same
client. -/
def InvoiceNumbersOk (db : DB) : Prop :=
  db.invoices.Pairwise (fun a b => a.client_id = b.client_id → a.invoice_number ≠ b.invoice_number)

/-- Every stored client carries a client code, and codes are pairwise
distinct. -/
def ClientCodesOk (db : DB) : Prop :=
  (∀ c ∈ db.clients, c.client_code.isSome = true) ∧
  db.clients.Pairwise (fun a b => a.client_code ≠ b.client_code)

/-! ### Concrete fixtures for witnesses and counterexamples -/

def adminUser : UserR := { id := 1, username := "admin@umvuzo.example", role := UserRole.admin }

def plainUser : UserR := { id := 2, username := "staff@umvuzo.example", role := UserRole.user }

def otherUser : UserR := { id := 3, username := "other@umvuzo.example", role := UserRole.user }

/-- The item list of the round-trip scenario in the spec. -/
def exampleItems : List QuoteItemR :=
  [{ description := "Setup", unit_cost := 100, quantity := 2 },
   { description := "Support", unit_cost := 50, quantity := 1 }]

/-- An approved, unconverted quote over `exampleItems`, created by
`plainUser`. -/
def exampleQuote : QuoteR :=
  { id := 10, quote_number := 1, client_id := 1, total := 250, status := "Approved",
    converted := false, created_by_id := 2, items := exampleItems }

def exampleDB : DB :=
  { clients := [{ id := 1, name := "Acme Corp", client_code := some "ACM001",
                  created_by_id := 2 }],
    quotes := [exampleQuote],
    invoices := [], users := [adminUser, plainUser, otherUser], resetTokens := [],
    auditLog := [], nextId := 11 }

/-- A store with two clients, each holding one approved quote. -/
def twoClientDB : DB :=
  { clients := [{ id := 1, name := "Acme Corp", client_code := some "ACM001",
                  created_by_id := 1 },
                { id := 2, name := "Beta Ltd", client_code := some "BET001",
                  created_by_id := 1 }],
    quotes := [{ id := 10, quote_number := 1, client_id := 1, total := 10,
                 status := "Approved", converted := false, created_by_id := 1,
                 items := [{ description := "Setup", unit_cost := 10, quantity := 1 }] },
               { id := 20, quote_number := 1, client_id := 2, total := 10,
                 status := "Approved", converted := false, created_by_id := 1,
                 items := [{ description := "Setup", unit_cost := 10, quantity := 1 }] }],
    invoices := [], users := [adminUser], resetTokens := [], auditLog := [], nextId := 30 }

/-- A store with no records at all. -/
def emptyDB : DB :=
  { clients := [], quotes := [], invoices := [], users := [], resetTokens := [],
    auditLog := [], nextId := 1 }

/-- A store holding one invoice that is already paid. -/
def paidInvoice : InvoiceR :=
  { id := 7, invoice_number := 1, client_id := 1, total := 10, paid := true,
    paid_at := some 5, created_by_id := 2, marked_paid_by_id := some 1,
    items := [{ description := "Setup", unit_cost := 10, quantity := 1 }] }

def paidDB : DB :=
  { clients := [], quotes := [], invoices := [paidInvoice],
    users := [adminUser, plainUser], resetTokens := [], auditLog := [], nextId := 8 }

/-! ### Helper lemmas -/

theorem numberFromLast_some (m : Nat) : numberFromLast (some m) = m + 1 := by
  cases m <;> rfl

theorem sqlMax_cons (x : Nat) (l : List Nat) :
    sqlMax (x :: l) = some (match sqlMax l with
      | none => x
      | some m => Nat.max x m) := by
  cases h : sqlMax l <;> simp [sqlMax] at h ⊢ <;> rw [h]

theorem sqlMax_eq_none_iff (l : List Nat) : sqlMax l = none ↔ l = [] := by
  cases l with
  | nil => simp [sqlMax]
  | cons x l => simp [sqlMax_cons]

theorem sqlMax_cons_eq_foldr : ∀ (x : Nat) (l : List Nat),
    sqlMax (x :: l) = some ((x :: l).foldr Nat.max 0) := by
  intro x l
  induction l generalizing x with
  | nil => simp [sqlMax_cons, sqlMax]
  | cons y l ih =>
    rw [sqlMax_cons, ih y]
    simp [List.foldr]

theorem le_sqlMax_of_mem : ∀ (l : List Nat) (x : Nat), x ∈ l →
    ∃ m, sqlMax l = some m ∧ x ≤ m := by
  intro l
  induction l with
  | nil => intro x hx; cases hx
  | cons y l ih =>
    intro x hx
    rw [List.mem_cons] at hx
    rw [sqlMax_cons]
    rcases hx with rfl | hx
    · cases h : sqlMax l with
      | none => exact ⟨x, rfl, Nat.le_refl x⟩
      | some m => exact ⟨Nat.max x m, rfl, Nat.le_max_left x m⟩
    · obtain ⟨m, hm, hxm⟩ := ih x hx
      rw [hm]
      exact ⟨Nat.max y m, rfl, Nat.le_trans hxm (Nat.le_max_right y m)⟩

theorem numberFromLast_sqlMax_eq (l : List Nat) :
    numberFromLast (sqlMax l) = if l.isEmpty then 1 else l.foldr Nat.max 0 + 1 := by
  cases l with
  | nil => rfl
  | cons x l => rw [sqlMax_cons_eq_foldr, numberFromLast_some]; rfl

/-- Every invoice number already issued to a client is below the next one. -/
theorem lt_nextInvoiceNumber (invoices : List InvoiceR) (cid : Nat) (inv : InvoiceR)
    (hmem : inv ∈ invoices) (hcid : inv.client_id = cid) :
    inv.invoice_number < nextInvoiceNumber invoices cid := by
  have hnum : inv.invoice_number ∈
      (invoices.filter (fun i => i.client_id == cid)).map (fun i => i.invoice_number) :=
    List.mem_map_of_mem _ (List.mem_filter.mpr ⟨hmem, by simp [hcid]⟩)
  obtain ⟨m, hm, hle⟩ := le_sqlMax_of_mem _ _ hnum
  unfold nextInvoiceNumber
  rw [hm, numberFromLast_some]
  omega

/-! String-level facts about the generated client codes. -/

theorem string_data_append (s t : String) : (s ++ t).data = s.data ++ t.data := rfl

theorem baseCode_data_length (name : String) : (baseCode name).data.length = 3 := by
  unfold baseCode
  split <;> simp
  omega

theorem likeMatch_append (base t : String) : likeMatch base (base ++ t) = true := by
  unfold likeMatch
  rw [string_data_append, List.take_left]
  simp

theorem dropStr_append (s t : String) (h : s.data.length = 3) :
    dropStr 3 (s ++ t) = t := by
  unfold dropStr
  rw [string_data_append, ← h, List.drop_left]

/-- The freshly generated client code collides with no stored code. -/
theorem clientCodeFor_fresh (db : DB) (name : String) :
    ∀ c ∈ db.clients, c.client_code ≠ some (clientCodeFor db name) := by
  intro c hc hcode
  have hlike : likeMatch (baseCode name) (clientCodeFor db name) = true := by
    unfold clientCodeFor
    exact likeMatch_append _ _
  have hcmem : c ∈ likeExisting db (baseCode name) := by
    refine List.mem_filter.mpr ⟨hc, ?_⟩
    rw [hcode]
    exact hlike
  have hparse : parseSuffix (dropStr 3 (clientCodeFor db name)) =
      some (nextClientNum db (baseCode name)) := by
    unfold clientCodeFor
    rw [dropStr_append _ _ (baseCode_data_length name)]
    exact parseSuffix_pad3 _
  have hnmem : nextClientNum db (baseCode name) ∈
      suffixNumbers (likeExisting db (baseCode name)) := by
    refine List.mem_filterMap.mpr ⟨c, hcmem, ?_⟩
    rw [hcode]
    exact hparse
  have hne : (likeExisting db (baseCode name)).isEmpty = false :=
    List.isEmpty_eq_false_iff_exists_mem.mpr ⟨c, hcmem⟩
  obtain ⟨m, hm, hle⟩ := le_sqlMax_of_mem _ _ hnmem
  have : nextClientNum db (baseCode name) = m + 1 := by
    unfold nextClientNum
    rw [if_neg (by simp [hne]), hm]
  omega

/-! Effect of each operation on the tables the invariants range over. -/

theorem create_client_invoices (db : DB) (name : String) (u : UserR) :
    (create_client db name u).1.invoices = db.invoices := rfl

theorem create_client_clients (db : DB) (name : String) (u : UserR) :
    (create_client db name u).1.clients = db.clients ++
      [{ id := db.nextId, name := name, client_code := some (clientCodeFor db name),
         created_by_id := u.id }] := rfl

theorem create_quote_invoices (db : DB) (cid : Nat) (items : List QuoteItemR) (u : UserR) :
    (create_quote db cid items u).2.invoices = db.invoices := by
  cases hfind : db.clients.find? (fun c => c.id == cid) with
  | none => simp [create_quote, hfind]
  | some c =>
    cases hacc : accessDenied u c.created_by_id with
    | true => simp [create_quote, hfind, hacc]
    | false =>
      cases hemp : items.isEmpty with
      | true => simp [create_quote, hfind, hacc, hemp]
      | false => simp [create_quote, hfind, hacc, hemp]

theorem create_quote_clients (db : DB) (cid : Nat) (items : List QuoteItemR) (u : UserR) :
    (create_quote db cid items u).2.clients = db.clients := by
  cases hfind : db.clients.find? (fun c => c.id == cid) with
  | none => simp [create_quote, hfind]
  | some c =>
    cases hacc : accessDenied u c.created_by_id with
    | true => simp [create_quote, hfind, hacc]
    | false =>
      cases hemp : items.isEmpty with
      | true => simp [create_quote, hfind, hacc, hemp]
      | false => simp [create_quote, hfind, hacc, hemp]

theorem convert_quote_clients (db : DB) (qid : Nat) (u : UserR) :
    (convert_quote db qid u).2.clients = db.clients := by
  cases hfind : db.quotes.find? (fun q2 => q2.id == qid) with
  | none => simp [convert_quote, hfind]
  | some q =>
    cases hacc : accessDenied u q.created_by_id with
    | true => simp [convert_quote, hfind, hacc]
    | false =>
      cases hconv : q.converted with
      | true => simp [convert_quote, hfind, hacc, hconv]
      | false =>
        cases hst : q.status != "Approved" with
        | true => simp [convert_quote, hfind, hacc, hconv, hst]
        | false => simp [convert_quote, hfind, hacc, hconv, hst]

/-- Either a conversion attempt leaves the invoice table alone, or it
appends exactly the invoice built from the found quote. -/
theorem convert_quote_invoices_cases (db : DB) (qid : Nat) (u : UserR) :
    (convert_quote db qid u).2.invoices = db.invoices ∨
    ∃ q, db.quotes.find? (fun q2 => q2.id == qid) = some q ∧
      (convert_quote db qid u).2.invoices = db.invoices ++
        [{ id := db.nextId, invoice_number := nextInvoiceNumber db.invoices q.client_id,
           client_id := q.client_id, total := quoteItemsTotal q.items, paid := false,
           paid_at := none, created_by_id := u.id, marked_paid_by_id := none,
           items := q.items.map (fun it =>
             ({ description := it.description, unit_cost := it.unit_cost,
                quantity := it.quantity } : InvoiceItemR)) }] := by
  cases hfind : db.quotes.find? (fun q2 => q2.id == qid) with
  | none => exact Or.inl (by simp [convert_quote, hfind])
  | some q =>
    cases hacc : accessDenied u q.created_by_id with
    | true => exact Or.inl (by simp [convert_quote, hfind, hacc])
    | false =>
      cases hconv : q.converted with
      | true => exact Or.inl (by simp [convert_quote, hfind, hacc, hconv])
      | false =>
        cases hst : q.status != "Approved" with
        | true => exact Or.inl (by simp [convert_quote, hfind, hacc, hconv, hst])
        | false =>
          refine Or.inr ⟨q, rfl, ?_⟩
          simp [convert_quote, hfind, hacc, hconv, hst]

theorem mark_paid_clients (db : DB) (iid : Nat) (u : UserR) (now : Nat) :
    (mark_paid db iid u now).2.clients = db.clients := by
  cases hfind : db.invoices.find? (fun i => i.id == iid) with
  | none => simp [mark_paid, hfind]
  | some inv =>
    cases hacc : accessDenied u inv.created_by_id with
    | true => simp [mark_paid, hfind, hacc]
    | false =>
      cases hpaid : inv.paid with
      | true => simp [mark_paid, hfind, hacc, hpaid]
      | false => simp [mark_paid, hfind, hacc, hpaid]

/-- Marking paid either leaves the invoice table alone or flips the paid
fields of the matching row, touching neither totals nor items. -/
theorem mark_paid_invoices_cases (db : DB) (iid : Nat) (u : UserR) (now : Nat) :
    (mark_paid db iid u now).2.invoices = db.invoices ∨
    (mark_paid db iid u now).2.invoices = db.invoices.map (fun i2 =>
      if i2.id == iid then
        { i2 with paid := true, paid_at := some now, marked_paid_by_id := some u.id }
      else i2) := by
  cases hfind : db.invoices.find? (fun i => i.id == iid) with
  | none => exact Or.inl (by simp [mark_paid, hfind])
  | some inv =>
    cases hacc : accessDenied u inv.created_by_id with
    | true => exact Or.inl (by simp [mark_paid, hfind, hacc])
    | false =>
      cases hpaid : inv.paid with
      | true => exact Or.inl (by simp [mark_paid, hfind, hacc, hpaid])
      | false => exact Or.inr (by simp [mark_paid, hfind, hacc, hpaid])

theorem forgot_password_invoices (db : DB) (username tok : String) (now : Nat) :
    (forgot_password db username tok now).2.invoices = db.invoices := by
  cases hfind : db.users.find? (fun u => u.username == username) with
  | none => simp [forgot_password, hfind]
  | some u => simp [forgot_password, hfind]

theorem forgot_password_clients (db : DB) (username tok : String) (now : Nat) :
    (forgot_password db username tok now).2.clients = db.clients := by
  cases hfind : db.users.find? (fun u => u.username == username) with
  | none => simp [forgot_password, hfind]
  | some u => simp [forgot_password, hfind]

/-- Copying a quote item list to invoice items preserves the summed total. -/
theorem invoiceItemsTotal_copy (items : List QuoteItemR) :
    invoiceItemsTotal (items.map (fun it =>
      ({ description := it.description, unit_cost := it.unit_cost,
         quantity := it.quantity } : InvoiceItemR))) = quoteItemsTotal items := by
  unfold invoiceItemsTotal quoteItemsTotal
  rw [List.foldl_map]

theorem accessDenied_false (u : UserR) (cid : Nat)
    (h : u.role = UserRole.admin ∨ cid = u.id) : accessDenied u cid = false := by
  rcases h with h | h <;> simp [accessDenied, h]

theorem accessDenied_true (u : UserR) (cid : Nat)
    (h1 : u.role ≠ UserRole.admin) (h2 : cid ≠ u.id) : accessDenied u cid = true := by
  simp [accessDenied, h1, h2]

/-! ### The claims -/

/-- C1.  For every quote whose status is "Approved" and whose converted
flag is false, and every acting user permitted by the access policy, a
successful conversion creates exactly one Invoice for the quote's client
with paid = false and creator = the acting user, creates one InvoiceItem
per QuoteItem in the quote's creation order with identical description,
unit_cost and quantity, sets the Invoice's total to the sum of
unit_cost * quantity over those items, and sets the quote's converted
flag to true; in particular a quote with items
[("Setup", 100.0, 2), ("Support", 50.0, 1)] converts to an Invoice with
total 250.0 and two matching items. -/
theorem conversion_effect :
    (∀ (db : DB) (qid : Nat) (u : UserR) (q : QuoteR),
      db.quotes.find? (fun q2 => q2.id == qid) = some q →
      q.status = "Approved" →
      q.converted = false →
      (u.role = UserRole.admin ∨ q.created_by_id = u.id) →
      ∃ inv : InvoiceR,
        (convert_quote db qid u).1 = Except.ok inv ∧
        (convert_quote db qid u).2.invoices = db.invoices ++ [inv] ∧
        inv.client_id = q.client_id ∧
        inv.paid = false ∧
        inv.created_by_id = u.id ∧
        inv.items = q.items.map (fun it =>
          ({ description := it.description, unit_cost := it.unit_cost,
             quantity := it.quantity } : InvoiceItemR)) ∧
        inv.total = invoiceItemsTotal inv.items ∧
        (convert_quote db qid u).2.quotes = db.quotes.map (fun q2 =>
          if q2.id == qid then { q2 with converted := true } else q2)) ∧
    ((convert_quote exampleDB 10 plainUser).1.toOption.map (fun inv => (inv.total, inv.items)) =
      some (250, [{ description := "Setup", unit_cost := 100, quantity := 2 },
                  { description := "Support", unit_cost := 50, quantity := 1 }])) := by
  constructor
  · intro db qid u q hfind hst hconv haccess
    have hacc : accessDenied u q.created_by_id = false := accessDenied_false u _ haccess
    have hstb : (q.status != "Approved") = false := by simp [hst]
    refine ⟨{ id := db.nextId,
              invoice_number := nextInvoiceNumber db.invoices q.client_id,
              client_id := q.client_id, total := quoteItemsTotal q.items, paid := false,
              paid_at := none, created_by_id := u.id, marked_paid_by_id := none,
              items := q.items.map (fun it =>
                ({ description := it.description, unit_cost := it.unit_cost,
                   quantity := it.quantity } : InvoiceItemR)) }, ?_, ?_, rfl, rfl, rfl, rfl, ?_, ?_⟩
    · simp [convert_quote, hfind, hacc, hconv, hstb]
    · simp [convert_quote, hfind, hacc, hconv, hstb]
    · exact (invoiceItemsTotal_copy q.items).symm
    · simp [convert_quote, hfind, hacc, hconv, hstb]
  · simp [convert_quote, exampleDB, exampleQuote, exampleItems, accessDenied, plainUser,
      quoteItemsTotal]
    refine ⟨_, rfl, ?_, rfl⟩
    norm_num

/-- C1 witness: converting the approved example quote as its creator
succeeds and appends exactly one invoice. -/
theorem conversion_effect_witness :
    ∃ inv : InvoiceR,
      (convert_quote exampleDB 10 plainUser).1 = Except.ok inv ∧
      (convert_quote exampleDB 10 plainUser).2.invoices = exampleDB.invoices ++ [inv] := by
  obtain ⟨inv, h1, h2, -⟩ :=
    conversion_effect.1 exampleDB 10 plainUser exampleQuote rfl rfl rfl (Or.inr rfl)
  exact ⟨inv, h1, h2⟩

/-- C2.  For every conversion request, the preconditions are checked in
the fixed order (1) quote exists, (2) acting user is admin or the quote's
creator, (3) quote not already converted, (4) quote status is "Approved",
and the first failing check determines the result: NotFound, Forbidden,
AlreadyConverted, or InvalidState respectively; a quote that fails an
earlier check never yields a later check's error. -/
theorem conversion_guard_order :
    (∀ (db : DB) (qid : Nat) (u : UserR),
      db.quotes.find? (fun q2 => q2.id == qid) = none →
      convert_quote db qid u = (Except.error ConvertError.notFound, db)) ∧
    (∀ (db : DB) (qid : Nat) (u : UserR) (q : QuoteR),
      db.quotes.find? (fun q2 => q2.id == qid) = some q →
      u.role ≠ UserRole.admin → q.created_by_id ≠ u.id →
      convert_quote db qid u = (Except.error ConvertError.forbidden, db)) ∧
    (∀ (db : DB) (qid : Nat) (u : UserR) (q : QuoteR),
      db.quotes.find? (fun q2 => q2.id == qid) = some q →
      (u.role = UserRole.admin ∨ q.created_by_id = u.id) →
      q.converted = true →
      convert_quote db qid u = (Except.error ConvertError.alreadyConverted, db)) ∧
    (∀ (db : DB) (qid : Nat) (u : UserR) (q : QuoteR),
      db.quotes.find? (fun q2 => q2.id == qid) = some q →
      (u.role = UserRole.admin ∨ q.created_by_id = u.id) →
      q.converted = false →
      q.status ≠ "Approved" →
      convert_quote db qid u = (Except.error ConvertError.invalidState, db)) := by
  refine ⟨?_, ?_, ?_, ?_⟩
  · intro db qid u hfind
    simp [convert_quote, hfind]
  · intro db qid u q hfind h1 h2
    simp [convert_quote, hfind, accessDenied_true u _ h1 h2]
  · intro db qid u q hfind haccess hconv
    simp [convert_quote, hfind, accessDenied_false u _ haccess, hconv]
  · intro db qid u q hfind haccess hconv hst
    have hstb : (q.status != "Approved") = true := bne_iff_ne.mpr hst
    simp [convert_quote, hfind, accessDenied_false u _ haccess, hconv, hstb]

/-- C2 witness: the guards fire as stated on concrete stores — a missing
quote id gives NotFound, and a foreign user gives Forbidden even on a
converted quote. -/
theorem conversion_guard_order_witness :
    convert_quote exampleDB 999 plainUser = (Except.error ConvertError.notFound, exampleDB) ∧
    convert_quote exampleDB 10 otherUser = (Except.error ConvertError.forbidden, exampleDB) := by
  constructor
  · exact conversion_guard_order.1 exampleDB 999 plainUser (by decide)
  · exact conversion_guard_order.2.1 exampleDB 10 otherUser exampleQuote rfl
      (by decide) (by decide)

/-- C3.  For every quote that is not in status "Approved" or that is
already converted, invoking conversion creates no Invoice and no
InvoiceItem and leaves the quote's state unchanged (in particular,
converted remains false for the not-approved quote); converting an
already-converted quote a second time never creates an additional
Invoice. -/
theorem conversion_failure_no_effect :
    ∀ (db : DB) (qid : Nat) (u : UserR) (q : QuoteR),
      db.quotes.find? (fun q2 => q2.id == qid) = some q →
      (q.converted = true ∨ q.status ≠ "Approved") →
      (convert_quote db qid u).2 = db ∧
      ∃ e, (convert_quote db qid u).1 = Except.error e := by
  intro db qid u q hfind hbad
  cases hacc : accessDenied u q.created_by_id with
  | true =>
    refine ⟨?_, ConvertError.forbidden, ?_⟩ <;> simp [convert_quote, hfind, hacc]
  | false =>
    cases hconv : q.converted with
    | true =>
      refine ⟨?_, ConvertError.alreadyConverted, ?_⟩ <;>
        simp [convert_quote, hfind, hacc, hconv]
    | false =>
      have hst : q.status ≠ "Approved" := by
        rcases hbad with hb | hb
        · rw [hconv] at hb; cases hb
        · exact hb
      have hstb : (q.status != "Approved") = true := bne_iff_ne.mpr hst
      refine ⟨?_, ConvertError.invalidState, ?_⟩ <;>
        simp [convert_quote, hfind, hacc, hconv, hstb]

/-- C3 witness: converting the example quote after it has already been
converted leaves the store untouched and creates no second invoice. -/
theorem conversion_failure_no_effect_witness :
    (convert_quote (convert_quote exampleDB 10 plainUser).2 10 plainUser).2 =
      (convert_quote exampleDB 10 plainUser).2 ∧
    ∃ e, (convert_quote (convert_quote exampleDB 10 plainUser).2 10 plainUser).1 =
      Except.error e := by
  exact conversion_failure_no_effect (convert_quote exampleDB 10 plainUser).2 10 plainUser
    { exampleQuote with converted := true } (by decide) (Or.inl rfl)

/-- C4.  For every client and document kind (quote or invoice), the number
allocated to a newly created document equals max(existing numbers for that
client and kind) + 1, or 1 when that client has no such documents, with
the maximum evaluated only over documents belonging to the same client;
consequently, for any two invoices of the same client the invoice_number
values are distinct, while invoices of different clients may carry the
same number. -/
theorem per_client_numbering :
    (∀ (invoices : List InvoiceR) (cid : Nat),
      nextInvoiceNumber invoices cid =
        if ((invoices.filter (fun i => i.client_id == cid)).map
            (fun i => i.invoice_number)).isEmpty then 1
        else ((invoices.filter (fun i => i.client_id == cid)).map
            (fun i => i.invoice_number)).foldr Nat.max 0 + 1) ∧
    (∀ (quotes : List QuoteR) (cid : Nat),
      nextQuoteNumber quotes cid =
        if ((quotes.filter (fun q => q.client_id == cid)).map
            (fun q => q.quote_number)).isEmpty then 1
        else ((quotes.filter (fun q => q.client_id == cid)).map
            (fun q => q.quote_number)).foldr Nat.max 0 + 1) ∧
    (∀ (db db' : DB), Step db db' → InvoiceNumbersOk db → InvoiceNumbersOk db') ∧
    (((convert_quote (convert_quote twoClientDB 10 adminUser).2 20 adminUser).2.invoices.map
        (fun i => (i.client_id, i.invoice_number))) = [(1, 1), (2, 1)]) := by
  refine ⟨?_, ?_, ?_, ?_⟩
  · intro invoices cid
    exact numberFromLast_sqlMax_eq _
  · intro quotes cid
    exact numberFromLast_sqlMax_eq _
  · intro db db' hstep hok
    unfold InvoiceNumbersOk at hok ⊢
    cases hstep with
    | createClient name u =>
      rw [create_client_invoices]
      exact hok
    | createQuote cid items u =>
      rw [create_quote_invoices]
      exact hok
    | convertQuote qid u =>
      rcases convert_quote_invoices_cases db qid u with h | ⟨q, hfind, h⟩
      · rw [h]
        exact hok
      · rw [h, List.pairwise_append]
        refine ⟨hok, by simp, ?_⟩
        intro a ha b hb
        rw [List.mem_singleton] at hb
        subst hb
        intro hcid
        have hlt := lt_nextInvoiceNumber db.invoices q.client_id a ha hcid
        show a.invoice_number ≠ nextInvoiceNumber db.invoices q.client_id
        omega
    | markPaid iid u now =>
      rcases mark_paid_invoices_cases db iid u now with h | h
      · rw [h]
        exact hok
      · rw [h, List.pairwise_map]
        refine hok.imp ?_
        intro a b hab
        have ha1 : (if a.id == iid then
            { a with paid := true, paid_at := some now, marked_paid_by_id := some u.id }
          else a).client_id = a.client_id := by split <;> rfl
        have ha2 : (if a.id == iid then
            { a with paid := true, paid_at := some now, marked_paid_by_id := some u.id }
          else a).invoice_number = a.invoice_number := by split <;> rfl
        have hb1 : (if b.id == iid then
            { b with paid := true, paid_at := some now, marked_paid_by_id := some u.id }
          else b).client_id = b.client_id := by split <;> rfl
        have hb2 : (if b.id == iid then
            { b with paid := true, paid_at := some now, marked_paid_by_id := some u.id }
          else b).invoice_number = b.invoice_number := by split <;> rfl
        rw [ha1, ha2, hb1, hb2]
        exact hab
    | forgotPassword username tok now =>
      rw [forgot_password_invoices]
      exact hok
  · decide

/-- C4 witness: starting from two clients with empty invoice tables, the
per-client uniqueness invariant is preserved across a conversion. -/
theorem per_client_numbering_witness :
    InvoiceNumbersOk twoClientDB ∧
    InvoiceNumbersOk (convert_quote twoClientDB 10 adminUser).2 :=
  ⟨List.Pairwise.nil,
   per_client_numbering.2.2.1 twoClientDB (convert_quote twoClientDB 10 adminUser).2
     (Step.convertQuote twoClientDB 10 adminUser) List.Pairwise.nil⟩

/-- C5.  For every invoice, at every point in time after its creation, the
sum of unit_cost * quantity over its InvoiceItems equals the invoice's
stored total; every operation that creates or mutates an invoice preserves
this equation. -/
theorem invoice_total_invariant :
    ∀ (db db' : DB), Step db db' → InvoiceTotalsOk db → InvoiceTotalsOk db' := by
  intro db db' hstep hok
  unfold InvoiceTotalsOk at hok ⊢
  cases hstep with
  | createClient name u =>
    intro inv hmem
    rw [create_client_invoices] at hmem
    exact hok inv hmem
  | createQuote cid items u =>
    intro inv hmem
    rw [create_quote_invoices] at hmem
    exact hok inv hmem
  | convertQuote qid u =>
    rcases convert_quote_invoices_cases db qid u with h | ⟨q, hfind, h⟩
    · intro inv hmem
      rw [h] at hmem
      exact hok inv hmem
    · intro inv hmem
      rw [h, List.mem_append] at hmem
      rcases hmem with hmem | hmem
      · exact hok inv hmem
      · rw [List.mem_singleton] at hmem
        subst hmem
        exact (invoiceItemsTotal_copy q.items).symm
  | markPaid iid u now =>
    rcases mark_paid_invoices_cases db iid u now with h | h
    · intro inv hmem
      rw [h] at hmem
      exact hok inv hmem
    · intro inv hmem
      rw [h, List.mem_map] at hmem
      obtain ⟨i0, hi0, rfl⟩ := hmem
      cases hid : i0.id == iid with
      | true => simpa [hid] using hok i0 hi0
      | false => simpa [hid] using hok i0 hi0
  | forgotPassword username tok now =>
    intro inv hmem
    rw [forgot_password_invoices] at hmem
    exact hok inv hmem

/-- C5 witness: the invariant holds vacuously on the example store and
still holds after the conversion step appends the new invoice. -/
theorem invoice_total_invariant_witness :
    InvoiceTotalsOk (convert_quote exampleDB 10 plainUser).2 :=
  invoice_total_invariant exampleDB (convert_quote exampleDB 10 plainUser).2
    (Step.convertQuote exampleDB 10 plainUser)
    (fun inv hmem => absurd hmem (List.not_mem_nil inv))

/-- C6 counterexample: the claim says client "Acme Corp", created with no
existing colliding codes, receives code "ACM"; the code generator in
main.py unconditionally appends a zero-padded numeric suffix, so the
client receives "ACM001" instead. -/
theorem client_code_counterexample :
    (create_client emptyDB "Acme Corp" adminUser).2 = "ACM001" ∧
    (create_client emptyDB "Acme Corp" adminUser).2 ≠ "ACM" := by
  decide

/-- C6 (amended).  Client-code generation strips non-alphabetic characters
from the name, uppercases it, and takes the first 3 letters (padding with
"X" when fewer than 3 letters are available); a zero-padded three-digit
numeric suffix is always appended — equal to one more than the highest
existing numeric suffix on that prefix, or 001 when there is none, even
when no existing client collides; in particular, creating client
"Acme Corp" with no existing colliding codes yields code ACM001, and a
subsequently created client "Acme Services" receives the distinct code
ACM002 on the same prefix. -/
theorem client_code_always_suffixed :
    (∀ (db : DB) (name : String) (u : UserR),
      (create_client db name u).2.data.take 3 = (baseCode name).data ∧
      parseSuffix (dropStr 3 (create_client db name u).2) =
        some (nextClientNum db (baseCode name))) ∧
    (∀ (db : DB) (base : String),
      nextClientNum db base =
        if (suffixNumbers (likeExisting db base)).isEmpty then 1
        else (suffixNumbers (likeExisting db base)).foldr Nat.max 0 + 1) ∧
    ((create_client emptyDB "Acme Corp" adminUser).2 = "ACM001") ∧
    ((create_client (create_client emptyDB "Acme Corp" adminUser).1
        "Acme Services" adminUser).2 = "ACM002") ∧
    (("ACM001" : String) ≠ "ACM002") ∧
    (baseCode "A1" = "AXX") := by
  refine ⟨?_, ?_, by decide, by decide, by decide, by decide⟩
  · intro db name u
    constructor
    · show (clientCodeFor db name).data.take 3 = (baseCode name).data
      unfold clientCodeFor
      rw [string_data_append, ← baseCode_data_length name, List.take_left]
    · show parseSuffix (dropStr 3 (clientCodeFor db name)) = _
      unfold clientCodeFor
      rw [dropStr_append _ _ (baseCode_data_length name)]
      exact parseSuffix_pad3 _
  · intro db base
    cases hnums : suffixNumbers (likeExisting db base) with
    | nil =>
      unfold nextClientNum
      rw [hnums]
      cases hex : (likeExisting db base).isEmpty <;> simp [hex, sqlMax]
    | cons x l =>
      have hex : (likeExisting db base).isEmpty = false := by
        cases hcl : likeExisting db base with
        | nil => rw [hcl] at hnums; cases hnums
        | cons c cs => rfl
      unfold nextClientNum
      rw [if_neg (by simp [hex]), hnums, sqlMax_cons_eq_foldr]
      simp

/-- C7.  For every pair of distinct clients in the store, their
client_code values differ; every client-creating operation preserves this
uniqueness invariant and assigns each new client a client_code. -/
theorem client_code_unique_invariant :
    (∀ (db db' : DB), Step db db' → ClientCodesOk db → ClientCodesOk db') ∧
    (∀ (db : DB) (name : String) (u : UserR),
      (create_client db name u).1.clients = db.clients ++
        [{ id := db.nextId, name := name,
           client_code := some (clientCodeFor db name), created_by_id := u.id }]) := by
  constructor
  · intro db db' hstep hok
    obtain ⟨hsome, hpw⟩ := hok
    cases hstep with
    | createClient name u =>
      constructor
      · intro c hc
        rw [create_client_clients, List.mem_append] at hc
        rcases hc with hc | hc
        · exact hsome c hc
        · rw [List.mem_singleton] at hc
          subst hc
          rfl
      · rw [create_client_clients, List.pairwise_append]
        refine ⟨hpw, by simp, ?_⟩
        intro a ha b hb
        rw [List.mem_singleton] at hb
        subst hb
        exact clientCodeFor_fresh db name a ha
    | createQuote cid items u =>
      rw [ClientCodesOk, create_quote_clients]
      exact ⟨hsome, hpw⟩
    | convertQuote qid u =>
      rw [ClientCodesOk, convert_quote_clients]
      exact ⟨hsome, hpw⟩
    | markPaid iid u now =>
      rw [ClientCodesOk, mark_paid_clients]
      exact ⟨hsome, hpw⟩
    | forgotPassword username tok now =>
      rw [ClientCodesOk, forgot_password_clients]
      exact ⟨hsome, hpw⟩
  · intro db name u
    exact create_client_clients db name u

/-- C7 witness: uniqueness of client codes survives creating a second
client that collides on the prefix of the first one's code. -/
theorem client_code_unique_invariant_witness :
    ClientCodesOk (create_client emptyDB "Acme Corp" adminUser).1 ∧
    ClientCodesOk (create_client (create_client emptyDB "Acme Corp" adminUser).1
      "Acme Services" adminUser).1 := by
  have h0 : ClientCodesOk emptyDB := ⟨fun c hc => absurd hc (List.not_mem_nil c), List.Pairwise.nil⟩
  have h1 := client_code_unique_invariant.1 emptyDB _
    (Step.createClient emptyDB "Acme Corp" adminUser) h0
  exact ⟨h1, client_code_unique_invariant.1 _ _
    (Step.createClient (create_client emptyDB "Acme Corp" adminUser).1
      "Acme Services" adminUser) h1⟩

/-- C8.  For every existing quote (or invoice, or client) and every
authenticated acting user: if the user's role is admin the access check
passes for view, convert and modify operations; if the user is not admin
and is not the entity's creator, the operation yields Forbidden and
performs no state change; in particular a non-admin user A can neither
view nor convert a quote created by a different user B. -/
theorem access_policy :
    (∀ (u : UserR) (creatorId : Nat),
      u.role = UserRole.admin → accessDenied u creatorId = false) ∧
    (∀ (db : DB) (qid : Nat) (u : UserR) (q : QuoteR),
      db.quotes.find? (fun q2 => q2.id == qid) = some q →
      u.role ≠ UserRole.admin → q.created_by_id ≠ u.id →
      view_quote db qid u = Except.error AccessError.forbidden) ∧
    (∀ (db : DB) (qid : Nat) (u : UserR) (q : QuoteR),
      db.quotes.find? (fun q2 => q2.id == qid) = some q →
      u.role ≠ UserRole.admin → q.created_by_id ≠ u.id →
      convert_quote db qid u = (Except.error ConvertError.forbidden, db)) ∧
    (∀ (db : DB) (iid : Nat) (u : UserR) (now : Nat) (inv : InvoiceR),
      db.invoices.find? (fun i => i.id == iid) = some inv →
      u.role ≠ UserRole.admin → inv.created_by_id ≠ u.id →
      mark_paid db iid u now = (Except.error AccessError.forbidden, db)) := by
  refine ⟨?_, ?_, ?_, ?_⟩
  · intro u creatorId h
    exact accessDenied_false u creatorId (Or.inl h)
  · intro db qid u q hfind h1 h2
    simp [view_quote, hfind, accessDenied_true u _ h1 h2]
  · intro db qid u q hfind h1 h2
    simp [convert_quote, hfind, accessDenied_true u _ h1 h2]
  · intro db iid u now inv hfind h1 h2
    simp [mark_paid, hfind, accessDenied_true u _ h1 h2]

/-- C8 witness: the non-admin `otherUser` can neither view nor convert the
quote created by `plainUser`, and the admin check passes. -/
theorem access_policy_witness :
    accessDenied adminUser 2 = false ∧
    view_quote exampleDB 10 otherUser = Except.error AccessError.forbidden ∧
    convert_quote exampleDB 10 otherUser =
      (Except.error ConvertError.forbidden, exampleDB) := by
  refine ⟨access_policy.1 adminUser 2 rfl,
    access_policy.2.1 exampleDB 10 otherUser exampleQuote rfl (by decide) (by decide),
    access_policy.2.2.1 exampleDB 10 otherUser exampleQuote rfl (by decide) (by decide)⟩

/-- C9.  For every pair of password-reset submissions, one with a username
that exists in the user table and one with a username that does not, the
response returned to the caller is identical: the same generic flash
message ("If that email exists, a reset link has been sent.") and the same
redirect, so the response reveals nothing about whether the submitted
username exists. -/
theorem forgot_password_uniform_response :
    ∀ (db1 db2 : DB) (n1 n2 tok1 tok2 : String) (t1 t2 : Nat),
      (∃ u ∈ db1.users, u.username = n1) →
      (∀ u ∈ db2.users, u.username ≠ n2) →
      (forgot_password db1 n1 tok1 t1).1 = (forgot_password db2 n2 tok2 t2).1 ∧
      (forgot_password db1 n1 tok1 t1).1 =
        { flash := "If that email exists, a reset link has been sent.",
          location := "/login", status := 303 } := by
  have hconst : ∀ (db : DB) (n tok : String) (t : Nat),
      (forgot_password db n tok t).1 =
        { flash := "If that email exists, a reset link has been sent.",
          location := "/login", status := 303 } := by
    intro db n tok t
    cases h : db.users.find? (fun u => u.username == n) <;> simp [forgot_password, h]
  intro db1 db2 n1 n2 tok1 tok2 t1 t2 hex hnone
  rw [hconst, hconst]
  exact ⟨rfl, rfl⟩

/-- C9 witness: a submission for an existing user of the example store and
one for a username absent from an empty store produce the same response. -/
theorem forgot_password_uniform_response_witness :
    (forgot_password exampleDB "staff@umvuzo.example" "tokA" 0).1 =
      (forgot_password emptyDB "ghost@umvuzo.example" "tokB" 7).1 :=
  (forgot_password_uniform_response exampleDB emptyDB "staff@umvuzo.example"
    "ghost@umvuzo.example" "tokA" "tokB" 0 7
    ⟨plainUser, by decide, rfl⟩ (by decide)).1

/-- C10.  Marking an invoice paid is idempotent: for every invoice whose
paid flag is already true, invoking mark_paid again changes nothing — paid
stays true, the original paid_at timestamp and marked_paid_by_id are
preserved, and no additional audit entry is written; for an unpaid invoice
it sets paid = true, records paid_at, and records the acting user as
marked_paid_by. -/
theorem mark_paid_idempotent :
    (∀ (db : DB) (iid : Nat) (u : UserR) (now : Nat) (inv : InvoiceR),
      db.invoices.find? (fun i => i.id == iid) = some inv →
      (u.role = UserRole.admin ∨ inv.created_by_id = u.id) →
      inv.paid = true →
      mark_paid db iid u now = (Except.ok (), db)) ∧
    (∀ (db : DB) (iid : Nat) (u : UserR) (now : Nat) (inv : InvoiceR),
      db.invoices.find? (fun i => i.id == iid) = some inv →
      (u.role = UserRole.admin ∨ inv.created_by_id = u.id) →
      inv.paid = false →
      (mark_paid db iid u now).1 = Except.ok () ∧
      (mark_paid db iid u now).2.invoices = db.invoices.map (fun i2 =>
        if i2.id == iid then
          { i2 with paid := true, paid_at := some now, marked_paid_by_id := some u.id }
        else i2) ∧
      (mark_paid db iid u now).2.auditLog = db.auditLog ++
        [{ user_id := u.id, action := "invoice_marked_paid", entity_type := some "invoice",
           entity_id := some inv.id }]) := by
  constructor
  · intro db iid u now inv hfind haccess hpaid
    simp [mark_paid, hfind, accessDenied_false u _ haccess, hpaid]
  · intro db iid u now inv hfind haccess hpaid
    refine ⟨?_, ?_, ?_⟩ <;>
      simp [mark_paid, hfind, accessDenied_false u _ haccess, hpaid]

/-- C10 witness: re-marking the already-paid invoice of `paidDB` returns
success and leaves the store — timestamps, marker and audit log — exactly
as it was. -/
theorem mark_paid_idempotent_witness :
    mark_paid paidDB 7 adminUser 99 = (Except.ok (), paidDB) :=
  mark_paid_idempotent.1 paidDB 7 adminUser 99 paidInvoice rfl (Or.inl rfl) rfl

end Umvuzo
